import Mathlib

/-!
Shallow embedding of `src/projectile.py`: a projectile-trajectory
calculator.  Python floats are modelled by real numbers; Python
exceptions (`ValueError` from `math.sqrt` and from `max([])`,
`ZeroDivisionError` from float division by zero, `IndexError` from list
indexing) are modelled by `Except Err`.  Python's built-in `round`
(round-half-to-even) is modelled by `pyRound`, and Python list indexing
(negative indices count from the end, out-of-range raises `IndexError`)
by `pyIdx` / `pyGet` / `pySet`.
-/

/-- The module-level constant `GRAVITATIONAL_ACCELERATION = 9.81`. -/
def GRAVITATIONAL_ACCELERATION : ℝ := 9.81

/-- The marker character `PROJECTILE = "∙"`. -/
def PROJECTILE : Char := '∙'

/-- The constant `x_axis_tick = "T"`. -/
def x_axis_tick : Char := 'T'

/-- The constant `y_axis_tick = "⊣"`. -/
def y_axis_tick : Char := '⊣'

/-- The Python exception kinds the program can raise. -/
inductive Err where
  | valueError
  | zeroDivisionError
  | indexError
deriving DecidableEq

/-- Python's built-in `round` on an exact real value: round half to even. -/
noncomputable def pyRound (x : ℝ) : ℤ :=
  if Int.fract x = 1 / 2 then (if Even ⌊x⌋ then ⌊x⌋ else ⌊x⌋ + 1) else round x

/-- `math.radians(d)`: degrees to radians. -/
noncomputable def radians (d : ℝ) : ℝ := d * (Real.pi / 180)

/-- `math.degrees(r)`: radians to degrees. -/
noncomputable def degrees (r : ℝ) : ℝ := r * (180 / Real.pi)

/-- The state of a `Projectile` object: `__speed`, `__height`, `__angle`
(the angle slot holds radians). -/
structure Projectile where
  speed : ℝ
  height : ℝ
  angle : ℝ

/-- `Projectile.__init__(speed, height, angle)`: the angle argument is in
degrees and is converted to radians by `math.radians`. -/
noncomputable def Projectile.init (speed height angle : ℝ) : Projectile :=
  ⟨speed, height, radians angle⟩

/-- `Projectile.__calculate_displacement`.  `math.sqrt` raises
`ValueError` on a negative argument. -/
noncomputable def calculate_displacement (p : Projectile) : Except Err ℝ :=
  let horizontal_component := p.speed * Real.cos p.angle
  let vertical_component := p.speed * Real.sin p.angle
  let squared_component := vertical_component ^ 2
  let gh_component := 2 * GRAVITATIONAL_ACCELERATION * p.height
  if squared_component + gh_component < 0 then
    .error .valueError
  else
    .ok (horizontal_component * (vertical_component +
      Real.sqrt (squared_component + gh_component)) / GRAVITATIONAL_ACCELERATION)

/-- The value `__calculate_y_coordinate` computes when its division does
not raise. -/
noncomputable def y_value (p : Projectile) (x : ℝ) : ℝ :=
  p.height + Real.tan p.angle * x -
    GRAVITATIONAL_ACCELERATION * x ^ 2 / (2 * p.speed ^ 2 * Real.cos p.angle ^ 2)

/-- `Projectile.__calculate_y_coordinate(x)`.  Python float division by
zero raises `ZeroDivisionError`. -/
noncomputable def calculate_y_coordinate (p : Projectile) (x : ℝ) : Except Err ℝ :=
  if 2 * p.speed ^ 2 * Real.cos p.angle ^ 2 = 0 then
    .error .zeroDivisionError
  else
    .ok (y_value p x)

/-- The list comprehension inside `calculate_all_coordinates`: evaluates
`__calculate_y_coordinate` at each `x` in order, surfacing the first
exception. -/
noncomputable def sampleLoop (p : Projectile) : List ℤ → Except Err (List (ℤ × ℝ))
  | [] => .ok []
  | x :: xs => do
    let y ← calculate_y_coordinate p (x : ℝ)
    let rest ← sampleLoop p xs
    .ok ((x, y) :: rest)

/-- `Projectile.calculate_all_coordinates`: one `(x, y)` pair for each
`x in range(math.ceil(displacement))`. -/
noncomputable def calculate_all_coordinates (p : Projectile) : Except Err (List (ℤ × ℝ)) := do
  let d ← calculate_displacement p
  sampleLoop p ((List.range (Int.ceil d).toNat).map (fun n : ℕ => (n : ℤ)))

/-- The `angle` property getter: `round(math.degrees(self.__angle))`. -/
noncomputable def Projectile.angleGet (p : Projectile) : ℤ :=
  pyRound (degrees p.angle)

/-- The `angle` property setter: stores `math.radians(n)`. -/
noncomputable def Projectile.angleSet (p : Projectile) (n : ℝ) : Projectile :=
  { p with angle := radians n }

/-- Right-align a string in a field of width `w` with spaces (Python
format spec `>w`; a longer string is not truncated). -/
def rightAlign (w : Nat) (s : String) : String :=
  String.mk (List.replicate (w - s.length) ' ') ++ s

/-- Python `f-string` fixed-point formatting `.2f` on an exact real:
the value rounded to hundredths (half to even on the exact value), with
a leading minus sign also when a negative value rounds to zero. -/
noncomputable def format2f (y : ℝ) : String :=
  let n := pyRound (100 * y)
  let sign := if n < 0 ∨ (n = 0 ∧ y < 0) then "-" else ""
  let a := n.natAbs
  sign ++ toString (a / 100) ++ "." ++
    (if a % 100 < 10 then "0" else "") ++ toString (a % 100)

/-- `Graph.create_coordinates_table`: starts from `'\n  x      y\n'` and
appends one `f'{x:>3}{y:>7.2f}\n'` row per stored point.  The program
always stores integer `x` values (they come from `range`), so the table
holds `ℤ × ℝ` points. -/
noncomputable def create_coordinates_table (coords : List (ℤ × ℝ)) : String :=
  coords.foldl
    (fun table p =>
      table ++ (rightAlign 3 (toString p.1) ++ rightAlign 7 (format2f p.2) ++ "\n"))
    "\n  x      y\n"

/-- Resolve a Python list index: a negative index counts from the end;
`none` means the access raises `IndexError`. -/
def pyIdx (len : Nat) (i : ℤ) : Option Nat :=
  let j := if i < 0 then (len : ℤ) + i else i
  if 0 ≤ j ∧ j < (len : ℤ) then some j.toNat else none

/-- Python `l[i]` on a list. -/
def pyGet {α : Type} (l : List α) (i : ℤ) : Except Err α :=
  match pyIdx l.length i with
  | some n =>
    match l.get? n with
    | some a => .ok a
    | none => .error .indexError
  | none => .error .indexError

/-- Python `l[i] = a` on a list. -/
def pySet {α : Type} (l : List α) (i : ℤ) (a : α) : Except Err (List α) :=
  match pyIdx l.length i with
  | some n => .ok (l.set n a)
  | none => .error .indexError

/-- `round` applied to both components of each stored point; `x` is
already an integer (Python `round` on an `int` is the identity). -/
noncomputable def rounded_coords (coords : List (ℤ × ℝ)) : List (ℤ × ℤ) :=
  coords.map (fun p => (p.1, pyRound p.2))

/-- `max(rounded_coords, key=lambda i: i[0])[0]`: Python `max` keeps the
current element unless a later key is strictly greater, and raises
`ValueError` on an empty sequence. -/
def maxFst : List (ℤ × ℤ) → Except Err ℤ
  | [] => .error .valueError
  | p :: rest => .ok (rest.foldl (fun m q => if m < q.1 then q.1 else m) p.1)

/-- `max(rounded_coords, key=lambda j: j[1])[1]`. -/
def maxSnd : List (ℤ × ℤ) → Except Err ℤ
  | [] => .error .valueError
  | p :: rest => .ok (rest.foldl (fun m q => if m < q.2 then q.2 else m) p.2)

/-- `[[" " for _ in range(x_max + 1)] for _ in range(y_max + 1)]`. -/
def make_matrix_list (x_max y_max : ℤ) : List (List Char) :=
  List.replicate (y_max + 1).toNat (List.replicate (x_max + 1).toNat ' ')

/-- `matrix_list[-1 - y][x] = PROJECTILE`: fetch row `-1 - y`, set its
`x`-th entry, and store the updated row back. -/
def setCell (g : List (List Char)) (y x : ℤ) : Except Err (List (List Char)) := do
  let row ← pyGet g (-1 - y)
  let row2 ← pySet row x PROJECTILE
  pySet g (-1 - y) row2

/-- The `for x, y in rounded_coords` marking loop of `create_trajectory`. -/
def markAll (g : List (List Char)) : List (ℤ × ℤ) → Except Err (List (List Char))
  | [] => .ok g
  | q :: rest => do
    let g2 ← setCell g q.2 q.1
    markAll g2 rest

/-- `Graph.create_trajectory` on already-rounded points, up to the final
string assembly: the rows `matrix_axes` (each grid row prefixed by the
y-axis tick, then the x-axis row `" " + "T" * len(matrix[0])`). -/
def trajectory_rows (rounded : List (ℤ × ℤ)) : Except Err (List String) := do
  let x_max ← maxFst rounded
  let y_max ← maxSnd rounded
  let marked ← markAll (make_matrix_list x_max y_max) rounded
  let matrix := marked.map (fun line => String.mk line)
  let matrix_axes := matrix.map (fun row => String.mk [y_axis_tick] ++ row)
  let first ← pyGet matrix 0
  .ok (matrix_axes ++ [String.mk [' '] ++ String.mk (List.replicate first.length x_axis_tick)])

/-- `Graph.create_trajectory` on already-rounded points: joins the rows
with newlines between a leading and a trailing blank line. -/
def create_trajectory_rounded (rounded : List (ℤ × ℤ)) : Except Err String := do
  let rows ← trajectory_rows rounded
  .ok ("\n" ++ String.intercalate "\n" rows ++ "\n")

/-- `Graph.create_trajectory`: round the stored points, then build the
plot. -/
noncomputable def create_trajectory (coords : List (ℤ × ℝ)) : Except Err String :=
  create_trajectory_rounded (rounded_coords coords)

/-- The character stored at row `r`, column `c` of a grid. -/
def cell (g : List (List Char)) (r c : Nat) : Option Char :=
  g[r]?.bind (fun row => row[c]?)

/-- Concatenation of a list of strings (spec-side helper used to state
the amended table claim). -/
def strJoin : List String → String
  | [] => ""
  | s :: l => s ++ strJoin l

/-! ### Basic lemmas about the embedding -/

@[simp]
lemma exceptBindOk {α β : Type} (a : α) (f : α → Except Err β) :
    (Except.ok a : Except Err α) >>= f = f a := rfl

@[simp]
lemma exceptBindErr {α β : Type} (e : Err) (f : α → Except Err β) :
    (Except.error e : Except Err α) >>= f = .error e := rfl

lemma pyRound_intCast (n : ℤ) : pyRound (n : ℝ) = n := by
  unfold pyRound
  rw [if_neg, round_intCast]
  rw [Int.fract_intCast]
  norm_num

lemma GRAV_eq : GRAVITATIONAL_ACCELERATION = 9.81 := rfl

/-! ### C1: the displacement formula -/

/-- C1: for every speed `v`, height `h` and stored radian angle `θ` with
`(v·sinθ)² + 2·g·h ≥ 0`, `__calculate_displacement` returns
`(v·cosθ) · (v·sinθ + sqrt((v·sinθ)² + 2·g·h)) / g` with `g = 9.81`. -/
theorem C1_displacement_formula (v h θ : ℝ)
    (hd : 0 ≤ (v * Real.sin θ) ^ 2 + 2 * 9.81 * h) :
    calculate_displacement ⟨v, h, θ⟩ =
      .ok ((v * Real.cos θ) * (v * Real.sin θ +
        Real.sqrt ((v * Real.sin θ) ^ 2 + 2 * 9.81 * h)) / 9.81) := by
  simp only [calculate_displacement, GRAVITATIONAL_ACCELERATION]
  rw [if_neg (not_lt.mpr hd)]

/-- Witness for C1 at `v = 1`, `h = 0`, `θ = 0`. -/
theorem C1_witness :
    0 ≤ ((1 : ℝ) * Real.sin 0) ^ 2 + 2 * 9.81 * 0 ∧
    calculate_displacement ⟨1, 0, 0⟩ =
      .ok (((1 : ℝ) * Real.cos 0) * ((1 : ℝ) * Real.sin 0 +
        Real.sqrt (((1 : ℝ) * Real.sin 0) ^ 2 + 2 * 9.81 * 0)) / 9.81) :=
  ⟨by norm_num, C1_displacement_formula 1 0 0 (by norm_num)⟩

/-! ### C2: the per-point height formula -/

/-- C2: for every `x` and every trajectory with `v ≠ 0` and `cosθ ≠ 0`,
`__calculate_y_coordinate` returns `h + x·tanθ − g·x²/(2·v²·cos²θ)`. -/
theorem C2_y_formula (v h θ x : ℝ) (hv : v ≠ 0) (hc : Real.cos θ ≠ 0) :
    calculate_y_coordinate ⟨v, h, θ⟩ x =
      .ok (h + x * Real.tan θ - 9.81 * x ^ 2 / (2 * v ^ 2 * Real.cos θ ^ 2)) := by
  have hden : 2 * v ^ 2 * Real.cos θ ^ 2 ≠ 0 :=
    mul_ne_zero (mul_ne_zero two_ne_zero (pow_ne_zero 2 hv)) (pow_ne_zero 2 hc)
  simp only [calculate_y_coordinate, y_value, GRAVITATIONAL_ACCELERATION]
  rw [if_neg hden]
  congr 1
  ring

/-- Witness for C2 at `v = 1`, `h = 0`, `θ = 0`, `x = 0`. -/
theorem C2_witness :
    (1 : ℝ) ≠ 0 ∧ Real.cos 0 ≠ 0 ∧
    calculate_y_coordinate ⟨1, 0, 0⟩ 0 =
      .ok ((0 : ℝ) + 0 * Real.tan 0 - 9.81 * 0 ^ 2 / (2 * 1 ^ 2 * Real.cos 0 ^ 2)) :=
  ⟨by norm_num, by norm_num,
    C2_y_formula 1 0 0 0 (by norm_num) (by norm_num)⟩

/-! ### C6: displacement domain error -/

/-- C6: `displacement` fails with the `ValueError` that `math.sqrt`
raises (the spec's DomainError) exactly when the discriminant
`(v·sinθ)² + 2·g·h` is negative, and returns a value exactly when the
discriminant is non-negative. -/
theorem C6_displacement_domain (v h θ : ℝ) :
    (calculate_displacement ⟨v, h, θ⟩ = .error .valueError ↔
      (v * Real.sin θ) ^ 2 + 2 * 9.81 * h < 0) ∧
    ((∃ r, calculate_displacement ⟨v, h, θ⟩ = .ok r) ↔
      0 ≤ (v * Real.sin θ) ^ 2 + 2 * 9.81 * h) := by
  simp only [calculate_displacement, GRAVITATIONAL_ACCELERATION]
  by_cases hd : (v * Real.sin θ) ^ 2 + 2 * 9.81 * h < 0
  · rw [if_pos hd]
    constructor
    · simp [hd]
    · simp [not_le.mpr hd]
  · rw [if_neg hd]
    constructor
    · simp [hd]
    · simp [not_lt.mp hd]

/-! ### C7: height-at domain error -/

/-- C7: for every `x`, `__calculate_y_coordinate` fails with a
`ZeroDivisionError` (the spec's DomainError) iff `speed = 0` or
`cosθ = 0`, returns a value otherwise, and in particular the projectile
built with speed 0, height 5, angle 30° always fails. -/
theorem C7_y_domain (v h θ x : ℝ) :
    (calculate_y_coordinate ⟨v, h, θ⟩ x = .error .zeroDivisionError ↔
      (v = 0 ∨ Real.cos θ = 0)) ∧
    ((∃ y, calculate_y_coordinate ⟨v, h, θ⟩ x = .ok y) ↔
      ¬(v = 0 ∨ Real.cos θ = 0)) ∧
    calculate_y_coordinate (Projectile.init 0 5 30) x = .error .zeroDivisionError := by
  have key : 2 * v ^ 2 * Real.cos θ ^ 2 = 0 ↔ v = 0 ∨ Real.cos θ = 0 := by
    rw [mul_eq_zero, mul_eq_zero]
    simp [pow_eq_zero_iff]
  refine ⟨?_, ?_, ?_⟩
  · simp only [calculate_y_coordinate]
    by_cases hz : 2 * v ^ 2 * Real.cos θ ^ 2 = 0
    · rw [if_pos hz]
      simp [key.mp hz]
    · rw [if_neg hz]
      simp [(not_iff_not.mpr key).mp hz]
  · simp only [calculate_y_coordinate]
    by_cases hz : 2 * v ^ 2 * Real.cos θ ^ 2 = 0
    · rw [if_pos hz]
      simp [key.mp hz]
    · rw [if_neg hz]
      simp [(not_iff_not.mpr key).mp hz]
  · simp [calculate_y_coordinate, Projectile.init]

/-! ### C9: angle get/set round trip -/

lemma angleGet_angleSet (q : Projectile) (d : ℝ) :
    (q.angleSet d).angleGet = pyRound d := by
  unfold Projectile.angleGet Projectile.angleSet degrees radians
  congr 1
  field_simp

/-- C9: setting the angle to `d` degrees and reading the accessor yields
`round(d)` (Python round-half-to-even), however many times the set/get
cycle with the same value is repeated. -/
theorem C9_angle_roundtrip (p : Projectile) (d : ℝ) (n : ℕ) :
    Projectile.angleGet ((fun q => Projectile.angleSet q d)^[n + 1] p) = pyRound d := by
  rw [Function.iterate_succ_apply']
  exact angleGet_angleSet _ d

/-! ### C3: the sampling loop -/

lemma displacement_pos_factors {p : Projectile} {d : ℝ}
    (h : calculate_displacement p = .ok d) (hd : 0 < d) :
    p.speed ≠ 0 ∧ Real.cos p.angle ≠ 0 := by
  simp only [calculate_displacement] at h
  by_cases hneg : (p.speed * Real.sin p.angle) ^ 2 +
      2 * GRAVITATIONAL_ACCELERATION * p.height < 0
  · rw [if_pos hneg] at h
    exact absurd h (by simp)
  · rw [if_neg hneg] at h
    have hval := (Except.ok.injEq _ _).mp h
    by_contra hcon
    rw [not_and_or, not_not, not_not] at hcon
    have hzero : p.speed * Real.cos p.angle = 0 := by
      rcases hcon with h0 | h0 <;> simp [h0]
    rw [hzero] at hval
    simp at hval
    rw [← hval] at hd
    exact lt_irrefl 0 hd

lemma sampleLoop_ok (p : Projectile) (hv : p.speed ≠ 0) (hc : Real.cos p.angle ≠ 0)
    (xs : List ℤ) :
    sampleLoop p xs = .ok (xs.map (fun x => (x, y_value p (x : ℝ)))) := by
  have hden : 2 * p.speed ^ 2 * Real.cos p.angle ^ 2 ≠ 0 :=
    mul_ne_zero (mul_ne_zero two_ne_zero (pow_ne_zero 2 hv)) (pow_ne_zero 2 hc)
  induction xs with
  | nil => rfl
  | cons x xs ih =>
    simp only [sampleLoop, calculate_y_coordinate, if_neg hden, exceptBindOk, ih,
      List.map_cons]

/-- C3: whenever the displacement computation returns a value `d`,
`calculate_all_coordinates` returns one point per integer `x` from `0`
to `⌈d⌉ − 1`, the `i`-th point being `(i, heightAt i)`, and returns the
empty list whenever `d ≤ 0`. -/
theorem C3_sample_trajectory (p : Projectile) (d : ℝ)
    (h : calculate_displacement p = .ok d) :
    ∃ l, calculate_all_coordinates p = .ok l ∧
      l.length = (Int.ceil d).toNat ∧
      (∀ i, (hi : i < l.length) → ∃ y,
        calculate_y_coordinate p ((i : ℤ) : ℝ) = .ok y ∧
        l.get ⟨i, hi⟩ = ((i : ℤ), y)) ∧
      (d ≤ 0 → l = []) := by
  by_cases hd : d ≤ 0
  · have hceil : (Int.ceil d).toNat = 0 :=
      Int.toNat_of_nonpos (Int.ceil_le.mpr (by exact_mod_cast hd))
    refine ⟨[], ?_, by simp [hceil], by simp, fun _ => rfl⟩
    simp only [calculate_all_coordinates, h, exceptBindOk, hceil, List.range_zero,
      List.map_nil, sampleLoop]
  · push_neg at hd
    obtain ⟨hv, hc⟩ := displacement_pos_factors h hd
    have hden : 2 * p.speed ^ 2 * Real.cos p.angle ^ 2 ≠ 0 :=
      mul_ne_zero (mul_ne_zero two_ne_zero (pow_ne_zero 2 hv)) (pow_ne_zero 2 hc)
    refine ⟨(List.range (Int.ceil d).toNat).map
      (fun n : ℕ => ((n : ℤ), y_value p ((n : ℤ) : ℝ))), ?_, ?_, ?_,
      fun h' => absurd h' (not_le.mpr hd)⟩
    · simp only [calculate_all_coordinates, h, exceptBindOk]
      rw [sampleLoop_ok p hv hc, List.map_map]
      rfl
    · rw [List.length_map, List.length_range]
    · intro i hi
      refine ⟨y_value p ((i : ℤ) : ℝ), ?_, ?_⟩
      · simp only [calculate_y_coordinate, if_neg hden]
      · simp only [List.get_eq_getElem, List.getElem_map, List.getElem_range]

/-- Witness for C3 at the projectile `⟨1, 0, 0⟩`, whose displacement is
`0`, so the sample list is empty. -/
theorem C3_witness :
    calculate_displacement ⟨1, 0, 0⟩ = .ok 0 ∧
    (∃ l, calculate_all_coordinates ⟨1, 0, 0⟩ = .ok l ∧
      l.length = (Int.ceil (0 : ℝ)).toNat ∧
      (∀ i, (hi : i < l.length) → ∃ y,
        calculate_y_coordinate ⟨1, 0, 0⟩ ((i : ℤ) : ℝ) = .ok y ∧
        l.get ⟨i, hi⟩ = ((i : ℤ), y)) ∧
      ((0 : ℝ) ≤ 0 → l = [])) := by
  have pf : calculate_displacement ⟨1, 0, 0⟩ = .ok 0 := by
    norm_num [calculate_displacement, GRAVITATIONAL_ACCELERATION, Real.sin_zero,
      Real.cos_zero, Real.sqrt_zero]
  exact ⟨pf, C3_sample_trajectory ⟨1, 0, 0⟩ 0 pf⟩

/-! ### C5: the coordinates table -/

lemma foldl_append_eq {α : Type} (f : α → String) :
    ∀ (l : List α) (init : String),
      l.foldl (fun acc a => acc ++ f a) init = init ++ strJoin (l.map f) := by
  intro l
  induction l with
  | nil => intro init; simp [strJoin]
  | cons a l ih =>
    intro init
    rw [List.foldl_cons, ih, List.map_cons, strJoin, String.append_assoc]

lemma format2f_zero : format2f 0 = "0.00" := by
  simp only [format2f]
  rw [show (100 : ℝ) * 0 = ((0 : ℤ) : ℝ) by norm_num, pyRound_intCast]
  rw [if_neg (by norm_num)]
  rfl

lemma format2f_095 : format2f 0.95 = "0.95" := by
  simp only [format2f]
  rw [show (100 : ℝ) * 0.95 = ((95 : ℤ) : ℝ) by norm_num, pyRound_intCast]
  rw [if_neg (by norm_num)]
  rfl

/-- C5 counterexample: the table text begins with a newline and a
two-space header `"  x      y"`, so it is not "exactly the header row
`" x      y"` … with nothing before the header": already on the empty
point list the output differs from both readings of the claimed text. -/
theorem C5_counterexample :
    create_coordinates_table [] = "\n  x      y\n" ∧
    "\n  x      y\n" ≠ " x      y" ∧
    "\n  x      y\n" ≠ " x      y\n" :=
  ⟨rfl, by decide, by decide⟩

/-- C5 amended: the table is a leading newline, the header row
`"  x      y"`, a newline, then one data row per point in input order
(`x` right-aligned to width 3, `y` right-aligned to width 7 with two
decimals), each followed by a newline; for `[(0, 0.0), (1, 0.95)]` this
is exactly the §8 text preceded by the leading newline. -/
theorem C5_table (coords : List (ℤ × ℝ)) :
    create_coordinates_table coords =
      "\n  x      y\n" ++ strJoin (coords.map (fun p =>
        rightAlign 3 (toString p.1) ++ rightAlign 7 (format2f p.2) ++ "\n")) ∧
    create_coordinates_table [(0, 0), (1, 0.95)] =
      "\n  x      y\n  0   0.00\n  1   0.95\n" := by
  constructor
  · exact foldl_append_eq _ coords _
  · rw [create_coordinates_table, List.foldl_cons, List.foldl_cons, List.foldl_nil]
    rw [format2f_zero, format2f_095]
    rfl

/-! ### Grid lemmas for the trajectory plot -/

lemma pyIdx_nonneg {len : Nat} {i : ℤ} (h1 : 0 ≤ i) (h2 : i < (len : ℤ)) :
    pyIdx len i = some i.toNat := by
  simp only [pyIdx]
  rw [if_neg (not_lt.mpr h1), if_pos ⟨h1, h2⟩]

lemma pyIdx_neg {len : Nat} {i : ℤ} (h1 : i < 0) (h2 : 0 ≤ (len : ℤ) + i) :
    pyIdx len i = some ((len : ℤ) + i).toNat := by
  simp only [pyIdx]
  rw [if_pos h1, if_pos ⟨h2, by omega⟩]

lemma setCell_ok {g : List (List Char)} {R C : Nat}
    (hg : g.length = R) (hrow : ∀ row ∈ g, row.length = C)
    {y x : ℤ} (hy0 : 0 ≤ y) (hy : y < (R : ℤ)) (hx0 : 0 ≤ x) (hx : x < (C : ℤ)) :
    ∃ g', setCell g y x = .ok g' ∧ g'.length = R ∧ (∀ row ∈ g', row.length = C) ∧
      (∀ r c : Nat, r < R → c < C →
        cell g' r c = if (r : ℤ) = (R : ℤ) - 1 - y ∧ (c : ℤ) = x
          then some PROJECTILE else cell g r c) := by
  have hr0nn : 0 ≤ (R : ℤ) - 1 - y := by omega
  have hr0lt : ((R : ℤ) - 1 - y).toNat < g.length := by omega
  have hrowget : g[((R : ℤ) - 1 - y).toNat]? = some (g.get ⟨((R : ℤ) - 1 - y).toNat, hr0lt⟩) :=
    List.getElem?_eq_getElem hr0lt
  have hrowmem : g.get ⟨((R : ℤ) - 1 - y).toNat, hr0lt⟩ ∈ g := List.getElem_mem _
  have hrowlen : (g.get ⟨((R : ℤ) - 1 - y).toNat, hr0lt⟩).length = C := hrow _ hrowmem
  have hxlt : x.toNat < (g.get ⟨((R : ℤ) - 1 - y).toNat, hr0lt⟩).length := by omega
  have hsc : setCell g y x = .ok (g.set ((R : ℤ) - 1 - y).toNat
      ((g.get ⟨((R : ℤ) - 1 - y).toNat, hr0lt⟩).set x.toNat PROJECTILE)) := by
    unfold setCell pyGet pySet
    rw [pyIdx_neg (by omega : (-1 : ℤ) - y < 0) (by omega)]
    rw [show ((g.length : ℤ) + (-1 - y)).toNat = ((R : ℤ) - 1 - y).toNat by omega]
    simp only [List.get?_eq_getElem?, hrowget, exceptBindOk]
    rw [hrowlen, pyIdx_nonneg hx0 hx]
    simp only [exceptBindOk]
  refine ⟨_, hsc, by rw [List.length_set, hg], ?_, ?_⟩
  · intro row hmem
    rcases List.mem_or_eq_of_mem_set hmem with h | h
    · exact hrow row h
    · rw [h, List.length_set]
      exact hrowlen
  · intro r c hr hc
    by_cases hreq : r = ((R : ℤ) - 1 - y).toNat
    · subst hreq
      simp only [cell, List.getElem?_set_self hr0lt, Option.some_bind]
      by_cases hceq : c = x.toNat
      · subst hceq
        rw [List.getElem?_set_self hxlt]
        rw [if_pos ⟨by omega, by omega⟩]
      · rw [List.getElem?_set_ne (fun h => hceq h.symm)]
        rw [if_neg (fun h => hceq (by omega))]
        rw [hrowget]
        simp only [Option.some_bind]
    · simp only [cell]
      rw [List.getElem?_set_ne (fun h => hreq h.symm)]
      rw [if_neg (fun h => hreq (by omega))]

lemma markAll_ok {R C : Nat} :
    ∀ (l : List (ℤ × ℤ)) (g : List (List Char)),
      g.length = R → (∀ row ∈ g, row.length = C) →
      (∀ q ∈ l, 0 ≤ q.1 ∧ q.1 < (C : ℤ) ∧ 0 ≤ q.2 ∧ q.2 < (R : ℤ)) →
      ∃ g', markAll g l = .ok g' ∧ g'.length = R ∧ (∀ row ∈ g', row.length = C) ∧
        (∀ r c : Nat, r < R → c < C →
          cell g' r c = if (∃ q ∈ l, (r : ℤ) = (R : ℤ) - 1 - q.2 ∧ (c : ℤ) = q.1)
            then some PROJECTILE else cell g r c) := by
  intro l
  induction l with
  | nil =>
    intro g hg hrow _
    exact ⟨g, rfl, hg, hrow, fun r c _ _ => by simp⟩
  | cons q rest ih =>
    intro g hg hrow hin
    obtain ⟨hq1, hq2, hq3, hq4⟩ := hin q (List.mem_cons_self _ _)
    obtain ⟨g1, hset, hg1, hrow1, hcell1⟩ := setCell_ok hg hrow hq3 hq4 hq1 hq2
    obtain ⟨g', hmark, hg', hrow', hcell'⟩ := ih g1 hg1 hrow1
      (fun p hp => hin p (List.mem_cons_of_mem _ hp))
    refine ⟨g', ?_, hg', hrow', ?_⟩
    · simp only [markAll, hset, exceptBindOk, hmark]
    · intro r c hr hc
      rw [hcell' r c hr hc, hcell1 r c hr hc]
      by_cases h1 : ∃ p ∈ rest, (r : ℤ) = (R : ℤ) - 1 - p.2 ∧ (c : ℤ) = p.1
      · rw [if_pos h1, if_pos ?_]
        obtain ⟨p, hp, hps⟩ := h1
        exact ⟨p, List.mem_cons_of_mem _ hp, hps⟩
      · rw [if_neg h1]
        by_cases h2 : (r : ℤ) = (R : ℤ) - 1 - q.2 ∧ (c : ℤ) = q.1
        · rw [if_pos h2, if_pos ⟨q, List.mem_cons_self _ _, h2⟩]
        · rw [if_neg h2, if_neg ?_]
          rintro ⟨p, hp, hps⟩
          rcases List.mem_cons.mp hp with rfl | hp'
          · exact h2 hps
          · exact h1 ⟨p, hp', hps⟩

lemma foldl_key_ge (k : ℤ × ℤ → ℤ) :
    ∀ (l : List (ℤ × ℤ)) (z : ℤ),
      z ≤ l.foldl (fun m q => if m < k q then k q else m) z := by
  intro l
  induction l with
  | nil => intro z; exact le_refl z
  | cons a l ih =>
    intro z
    refine le_trans ?_ (ih (if z < k a then k a else z))
    by_cases h : z < k a
    · rw [if_pos h]; exact le_of_lt h
    · rw [if_neg h]

lemma foldl_key_le (k : ℤ × ℤ → ℤ) :
    ∀ (l : List (ℤ × ℤ)) (z : ℤ), ∀ q ∈ l,
      k q ≤ l.foldl (fun m q => if m < k q then k q else m) z := by
  intro l
  induction l with
  | nil => intro z q hq; exact absurd hq (List.not_mem_nil q)
  | cons a l ih =>
    intro z q hq
    rcases List.mem_cons.mp hq with rfl | hq'
    · refine le_trans ?_ (foldl_key_ge k l _)
      show k q ≤ if z < k q then k q else z
      by_cases h : z < k q
      · rw [if_pos h]
      · rw [if_neg h]; exact le_of_not_lt h
    · exact ih _ q hq'

lemma maxFst_le {l : List (ℤ × ℤ)} {X : ℤ} (h : maxFst l = .ok X) :
    ∀ q ∈ l, q.1 ≤ X := by
  match l with
  | [] => simp [maxFst] at h
  | p :: rest =>
    simp only [maxFst, Except.ok.injEq] at h
    intro q hq
    rcases List.mem_cons.mp hq with rfl | hq'
    · exact h ▸ foldl_key_ge (fun q => q.1) rest q.1
    · exact h ▸ foldl_key_le (fun q => q.1) rest p.1 q hq'

lemma maxFst_nonneg {l : List (ℤ × ℤ)} {X : ℤ} (h : maxFst l = .ok X)
    (hnn : ∀ q ∈ l, 0 ≤ q.1) : 0 ≤ X := by
  match l with
  | [] => simp [maxFst] at h
  | p :: rest =>
    simp only [maxFst, Except.ok.injEq] at h
    exact le_trans (hnn p (List.mem_cons_self _ _)) (h ▸ foldl_key_ge (fun q => q.1) rest p.1)

lemma maxSnd_le {l : List (ℤ × ℤ)} {Y : ℤ} (h : maxSnd l = .ok Y) :
    ∀ q ∈ l, q.2 ≤ Y := by
  match l with
  | [] => simp [maxSnd] at h
  | p :: rest =>
    simp only [maxSnd, Except.ok.injEq] at h
    intro q hq
    rcases List.mem_cons.mp hq with rfl | hq'
    · exact h ▸ foldl_key_ge (fun q => q.2) rest q.2
    · exact h ▸ foldl_key_le (fun q => q.2) rest p.2 q hq'

lemma maxSnd_nonneg {l : List (ℤ × ℤ)} {Y : ℤ} (h : maxSnd l = .ok Y)
    (hnn : ∀ q ∈ l, 0 ≤ q.2) : 0 ≤ Y := by
  match l with
  | [] => simp [maxSnd] at h
  | p :: rest =>
    simp only [maxSnd, Except.ok.injEq] at h
    exact le_trans (hnn p (List.mem_cons_self _ _)) (h ▸ foldl_key_ge (fun q => q.2) rest p.2)

lemma pyGet_error {α : Type} {l : List α} {i : ℤ} {e : Err}
    (h : pyGet l i = .error e) : e = .indexError := by
  unfold pyGet at h
  split at h
  · split at h
    · simp at h
    · simp only [Except.error.injEq] at h
      exact h.symm
  · simp only [Except.error.injEq] at h
    exact h.symm

lemma pySet_error {α : Type} {l : List α} {i : ℤ} {a : α} {e : Err}
    (h : pySet l i a = .error e) : e = .indexError := by
  unfold pySet at h
  split at h
  · simp at h
  · simp only [Except.error.injEq] at h
    exact h.symm

lemma setCell_error {g : List (List Char)} {y x : ℤ} {e : Err}
    (h : setCell g y x = .error e) : e = .indexError := by
  unfold setCell at h
  cases hg1 : pyGet g (-1 - y) with
  | error e1 =>
    rw [hg1] at h
    simp only [exceptBindErr, Except.error.injEq] at h
    rw [← h]
    exact pyGet_error hg1
  | ok row =>
    rw [hg1] at h
    simp only [exceptBindOk] at h
    cases hs1 : pySet row x PROJECTILE with
    | error e2 =>
      rw [hs1] at h
      simp only [exceptBindErr, Except.error.injEq] at h
      rw [← h]
      exact pySet_error hs1
    | ok row2 =>
      rw [hs1] at h
      simp only [exceptBindOk] at h
      exact pySet_error h

lemma markAll_not_valueError :
    ∀ (l : List (ℤ × ℤ)) (g : List (List Char)), markAll g l ≠ .error .valueError := by
  intro l
  induction l with
  | nil => intro g h; simp [markAll] at h
  | cons q rest ih =>
    intro g h
    unfold markAll at h
    cases hs : setCell g q.2 q.1 with
    | error e =>
      rw [hs] at h
      simp only [exceptBindErr, Except.error.injEq] at h
      rw [setCell_error hs] at h
      simp at h
    | ok g2 =>
      rw [hs] at h
      simp only [exceptBindOk] at h
      exact ih g2 h

/-! ### C4: the plot grid -/

/-- C4: for rounded points that are non-empty (witnessed by `maxFst` and
`maxSnd` succeeding) and non-negative, the marking loop succeeds on the
freshly allocated grid and yields `y_max+1` rows of `x_max+1` cells in
which a cell holds the projectile marker exactly when some point marks
row `y_max − y`, column `x`, and holds the blank fill character
otherwise (repeated marks simply overwrite with the same marker). -/
theorem C4_plot_grid (l : List (ℤ × ℤ)) (X Y : ℤ)
    (hX : maxFst l = .ok X) (hY : maxSnd l = .ok Y)
    (hnn : ∀ q ∈ l, 0 ≤ q.1 ∧ 0 ≤ q.2) :
    ∃ M, markAll (make_matrix_list X Y) l = .ok M ∧
      M.length = Y.toNat + 1 ∧
      (∀ row ∈ M, row.length = X.toNat + 1) ∧
      (∀ r c : Nat, r < Y.toNat + 1 → c < X.toNat + 1 →
        (cell M r c = some PROJECTILE ↔ ∃ q ∈ l, (r : ℤ) = Y - q.2 ∧ (c : ℤ) = q.1) ∧
        (cell M r c = some PROJECTILE ∨ cell M r c = some ' ')) := by
  have hX0 : 0 ≤ X := maxFst_nonneg hX (fun q hq => (hnn q hq).1)
  have hY0 : 0 ≤ Y := maxSnd_nonneg hY (fun q hq => (hnn q hq).2)
  have hlen0 : (make_matrix_list X Y).length = (Y + 1).toNat :=
    List.length_replicate _ _
  have hrow0 : ∀ row ∈ make_matrix_list X Y, row.length = (X + 1).toNat := by
    intro row hr
    rw [List.eq_of_mem_replicate hr]
    exact List.length_replicate _ _
  have hin : ∀ q ∈ l, 0 ≤ q.1 ∧ q.1 < (((X + 1).toNat : ℕ) : ℤ) ∧
      0 ≤ q.2 ∧ q.2 < (((Y + 1).toNat : ℕ) : ℤ) := by
    intro q hq
    have h3 := maxFst_le hX q hq
    have h4 := maxSnd_le hY q hq
    exact ⟨(hnn q hq).1, by omega, (hnn q hq).2, by omega⟩
  obtain ⟨M, hM, hMlen, hMrow, hMcell⟩ :=
    markAll_ok l (make_matrix_list X Y) hlen0 hrow0 hin
  refine ⟨M, hM, by rw [hMlen]; omega, fun row hr => by rw [hMrow row hr]; omega,
    fun r c hr hc => ?_⟩
  have hrR : r < (Y + 1).toNat := by omega
  have hcC : c < (X + 1).toNat := by omega
  have hcl := hMcell r c hrR hcC
  have hcond : (∃ q ∈ l, (r : ℤ) = (((Y + 1).toNat : ℕ) : ℤ) - 1 - q.2 ∧ (c : ℤ) = q.1) ↔
      (∃ q ∈ l, (r : ℤ) = Y - q.2 ∧ (c : ℤ) = q.1) := by
    constructor <;> rintro ⟨q, hq, hq1, hq2⟩ <;> exact ⟨q, hq, by omega, hq2⟩
  have hcell0 : cell (make_matrix_list X Y) r c = some ' ' := by
    unfold cell make_matrix_list
    rw [List.getElem?_replicate_of_lt hrR, Option.some_bind,
      List.getElem?_replicate_of_lt hcC]
  by_cases hex : ∃ q ∈ l, (r : ℤ) = Y - q.2 ∧ (c : ℤ) = q.1
  · rw [if_pos (hcond.mpr hex)] at hcl
    exact ⟨⟨fun _ => hex, fun _ => hcl⟩, Or.inl hcl⟩
  · rw [if_neg (fun h => hex (hcond.mp h)), hcell0] at hcl
    rw [hcl]
    exact ⟨⟨fun h => absurd h (by decide), fun h => absurd h hex⟩, Or.inr rfl⟩

/-- Witness for C4 at the single point `(3, 4)`: the grid has 5 rows and
4 columns with the marker exactly at row 0, column 3. -/
theorem C4_witness :
    maxFst [((3 : ℤ), (4 : ℤ))] = .ok 3 ∧
    maxSnd [((3 : ℤ), (4 : ℤ))] = .ok 4 ∧
    (∀ q ∈ [((3 : ℤ), (4 : ℤ))], 0 ≤ q.1 ∧ 0 ≤ q.2) ∧
    (∃ M, markAll (make_matrix_list 3 4) [((3 : ℤ), (4 : ℤ))] = .ok M ∧
      M.length = (4 : ℤ).toNat + 1 ∧
      (∀ row ∈ M, row.length = (3 : ℤ).toNat + 1) ∧
      (∀ r c : Nat, r < (4 : ℤ).toNat + 1 → c < (3 : ℤ).toNat + 1 →
        (cell M r c = some PROJECTILE ↔
          ∃ q ∈ [((3 : ℤ), (4 : ℤ))], (r : ℤ) = 4 - q.2 ∧ (c : ℤ) = q.1) ∧
        (cell M r c = some PROJECTILE ∨ cell M r c = some ' '))) :=
  ⟨rfl, rfl, by decide, C4_plot_grid [((3 : ℤ), (4 : ℤ))] 3 4 rfl rfl (by decide)⟩

/-! ### C10: uniform line lengths in the plot -/

lemma pyGet_zero {α : Type} (a : α) (t : List α) : pyGet (a :: t) 0 = .ok a := by
  unfold pyGet
  rw [pyIdx_nonneg (le_refl 0) (by rw [List.length_cons]; push_cast; omega)]
  rfl

/-- C10: for a non-empty sequence of non-negative rounded points, every
rendered row between the leading and trailing blank lines — the
`y_max+1` tick-prefixed grid rows and the final axis row — has length
`x_max + 2`, and the final row is a space followed by `x_max + 1` x-axis
ticks. -/
theorem C10_line_lengths (l : List (ℤ × ℤ)) (X Y : ℤ)
    (hX : maxFst l = .ok X) (hY : maxSnd l = .ok Y)
    (hnn : ∀ q ∈ l, 0 ≤ q.1 ∧ 0 ≤ q.2) :
    ∃ rows, trajectory_rows l = .ok rows ∧
      create_trajectory_rounded l = .ok ("\n" ++ String.intercalate "\n" rows ++ "\n") ∧
      rows ≠ [] ∧
      (∀ row ∈ rows, row.length = X.toNat + 2) ∧
      rows.getLast? = some (String.mk [' '] ++
        String.mk (List.replicate (X.toNat + 1) x_axis_tick)) := by
  have hX0 : 0 ≤ X := maxFst_nonneg hX (fun q hq => (hnn q hq).1)
  have hY0 : 0 ≤ Y := maxSnd_nonneg hY (fun q hq => (hnn q hq).2)
  have hlen0 : (make_matrix_list X Y).length = (Y + 1).toNat :=
    List.length_replicate _ _
  have hrow0 : ∀ row ∈ make_matrix_list X Y, row.length = (X + 1).toNat := by
    intro row hr
    rw [List.eq_of_mem_replicate hr]
    exact List.length_replicate _ _
  have hin : ∀ q ∈ l, 0 ≤ q.1 ∧ q.1 < (((X + 1).toNat : ℕ) : ℤ) ∧
      0 ≤ q.2 ∧ q.2 < (((Y + 1).toNat : ℕ) : ℤ) := by
    intro q hq
    have h3 := maxFst_le hX q hq
    have h4 := maxSnd_le hY q hq
    exact ⟨(hnn q hq).1, by omega, (hnn q hq).2, by omega⟩
  obtain ⟨M, hM, hMlen, hMrow, _⟩ :=
    markAll_ok l (make_matrix_list X Y) hlen0 hrow0 hin
  have hMne : M ≠ [] := by
    intro h
    rw [h] at hMlen
    simp at hMlen
    omega
  obtain ⟨M0, Mrest, rfl⟩ := List.exists_cons_of_ne_nil hMne
  have hM0len : M0.length = (X + 1).toNat := hMrow M0 (List.mem_cons_self _ _)
  have hrows : trajectory_rows l = .ok
      ((String.mk M0 :: Mrest.map String.mk).map
        (fun row => String.mk [y_axis_tick] ++ row) ++
       [String.mk [' '] ++
        String.mk (List.replicate (String.mk M0).length x_axis_tick)]) := by
    unfold trajectory_rows
    rw [hX]
    simp only [exceptBindOk]
    rw [hY]
    simp only [exceptBindOk]
    rw [hM]
    simp only [exceptBindOk]
    rw [List.map_cons, pyGet_zero]
    simp only [exceptBindOk]
  refine ⟨_, hrows, ?_, ?_, ?_, ?_⟩
  · unfold create_trajectory_rounded
    rw [hrows]
    simp only [exceptBindOk]
  · simp
  · intro row hrow
    rcases List.mem_append.mp hrow with h | h
    · obtain ⟨row', hrow', rfl⟩ := List.mem_map.mp h
      have hlen' : row'.length = (X + 1).toNat := by
        rcases List.mem_cons.mp hrow' with rfl | h'
        · rw [String.length_mk]
          exact hM0len
        · obtain ⟨line, hline, rfl⟩ := List.mem_map.mp h'
          rw [String.length_mk]
          exact hMrow line (List.mem_cons_of_mem _ hline)
      rw [String.length_append, String.length_mk, hlen']
      simp only [List.length_singleton]
      omega
    · rw [List.mem_singleton.mp h]
      rw [String.length_append, String.length_mk, String.length_mk,
        List.length_replicate, String.length_mk, hM0len]
      simp only [List.length_singleton]
      omega
  · rw [List.getLast?_concat]
    rw [show (String.mk M0).length = X.toNat + 1 by rw [String.length_mk, hM0len]; omega]

/-- Witness for C10 at the single point `(3, 4)`. -/
theorem C10_witness :
    maxFst [((3 : ℤ), (4 : ℤ))] = .ok 3 ∧
    maxSnd [((3 : ℤ), (4 : ℤ))] = .ok 4 ∧
    (∀ q ∈ [((3 : ℤ), (4 : ℤ))], 0 ≤ q.1 ∧ 0 ≤ q.2) ∧
    (∃ rows, trajectory_rows [((3 : ℤ), (4 : ℤ))] = .ok rows ∧
      create_trajectory_rounded [((3 : ℤ), (4 : ℤ))] =
        .ok ("\n" ++ String.intercalate "\n" rows ++ "\n") ∧
      rows ≠ [] ∧
      (∀ row ∈ rows, row.length = (3 : ℤ).toNat + 2) ∧
      rows.getLast? = some (String.mk [' '] ++
        String.mk (List.replicate ((3 : ℤ).toNat + 1) x_axis_tick))) :=
  ⟨rfl, rfl, by decide, C10_line_lengths [((3 : ℤ), (4 : ℤ))] 3 4 rfl rfl (by decide)⟩

/-! ### C8: empty-input failure of the plot -/

/-- C8: `create_trajectory` fails with the `ValueError` that Python's
`max` raises on an empty sequence (the spec's EmptyInputError) exactly
on the empty point list: it raises it there, and never raises it on a
non-empty point list. -/
theorem C8_empty_plot :
    create_trajectory [] = .error .valueError ∧
    ∀ coords : List (ℤ × ℝ), coords ≠ [] →
      create_trajectory coords ≠ .error .valueError := by
  constructor
  · rfl
  · intro coords hne
    obtain ⟨p, rest, rfl⟩ := List.exists_cons_of_ne_nil hne
    unfold create_trajectory create_trajectory_rounded trajectory_rows
    simp only [rounded_coords, List.map_cons, maxFst, maxSnd, exceptBindOk]
    cases hm : markAll (make_matrix_list _ _) _ with
    | error e =>
      simp only [exceptBindErr]
      intro h
      simp only [Except.error.injEq] at h
      rw [h] at hm
      exact markAll_not_valueError _ _ hm
    | ok M =>
      simp only [exceptBindOk]
      cases hfg : pyGet (M.map (fun line => String.mk line)) 0 with
      | error e =>
        simp only [exceptBindErr]
        intro h
        simp only [Except.error.injEq] at h
        rw [pyGet_error hfg] at h
        simp at h
      | ok first =>
        simp only [exceptBindOk]
        intro h
        simp at h

/-- Witness for C8: the non-empty branch at the single point `(3, 4)`. -/
theorem C8_witness :
    create_trajectory [] = .error .valueError ∧
    ([((3 : ℤ), (4 : ℝ))] : List (ℤ × ℝ)) ≠ [] ∧
    create_trajectory [((3 : ℤ), (4 : ℝ))] ≠ .error .valueError :=
  ⟨C8_empty_plot.1, by simp, C8_empty_plot.2 [((3 : ℤ), (4 : ℝ))] (by simp)⟩

/-! ### Closing remarks relating the stages -/

lemma create_trajectory_eq_rounded (coords : List (ℤ × ℝ)) :
    create_trajectory coords = create_trajectory_rounded (rounded_coords coords) := rfl

/-- Witness for C6: instantiation at `v = 1`, `h = 0`, `θ = 0`. -/
theorem C6_witness :
    (calculate_displacement ⟨1, 0, 0⟩ = .error .valueError ↔
      ((1 : ℝ) * Real.sin 0) ^ 2 + 2 * 9.81 * 0 < 0) ∧
    ((∃ r, calculate_displacement ⟨1, 0, 0⟩ = .ok r) ↔
      0 ≤ ((1 : ℝ) * Real.sin 0) ^ 2 + 2 * 9.81 * 0) :=
  C6_displacement_domain 1 0 0

/-- Witness for C7: instantiation at `v = 1`, `h = 0`, `θ = 0`, `x = 0`. -/
theorem C7_witness :
    ((calculate_y_coordinate ⟨1, 0, 0⟩ 0 = .error .zeroDivisionError) ↔
      ((1 : ℝ) = 0 ∨ Real.cos 0 = 0)) ∧
    ((∃ y, calculate_y_coordinate ⟨1, 0, 0⟩ 0 = .ok y) ↔
      ¬((1 : ℝ) = 0 ∨ Real.cos 0 = 0)) ∧
    calculate_y_coordinate (Projectile.init 0 5 30) 0 = .error .zeroDivisionError :=
  C7_y_domain 1 0 0 0
